import Mathlib

/-!
Verification development for the `cr-renderer` repository.

The definitions below are a shallow embedding of the Python sources
(`src/cr_renderer/fonts.py`, `src/cr_renderer/renderer.py`,
`src/cr_renderer/schema.py`).  Python strings are modelled as Lean
`String`/`List Char` (with ASCII case conversion, which covers the whole
font-keyword domain used by the code), Python `float` arithmetic is
modelled by exact rationals `ℚ`, Python exceptions are modelled by
`Except`/result flags, and Python dicts (which preserve insertion order)
are modelled by association lists with distinct keys.
-/

namespace CR

/-! ## Python string primitives (fonts.py helpers) -/

/-- Model of Python `str.replace("_", " ")`: pointwise character map. -/
def underscoreToSpace (s : List Char) : List Char :=
  s.map (fun c => if c = '_' then ' ' else c)

/-- Model of Python `str.lower()` on the ASCII range. -/
def pyLower (s : List Char) : List Char :=
  s.map Char.toLower

/-- Model of Python `str.title()`: the first cased character of every run of
letters is upper-cased, subsequent letters are lower-cased; any non-letter
restarts a word.  The Boolean state records whether the previous character
was a letter. -/
def titleAux : Bool → List Char → List Char
  | _, [] => []
  | prev, c :: rest =>
    if c.isAlpha then
      (if prev then c.toLower else c.toUpper) :: titleAux true rest
    else
      c :: titleAux false rest

/-- Model of Python `str.title()`. -/
def pyTitle (s : List Char) : List Char :=
  titleAux false s

/-- Fuel-indexed core of `removeAll` (Python `str.replace(pat, "")`):
scans left to right, deleting every non-overlapping occurrence of `pat`.
The fuel is the length of the scanned list, which suffices because every
step consumes at least one character. -/
def removeAllF (pat : List Char) : Nat → List Char → List Char
  | _, [] => []
  | 0, s => s
  | fuel + 1, c :: rest =>
    if pat ≠ [] ∧ List.isPrefixOf pat (c :: rest) then
      removeAllF pat fuel (List.drop (pat.length - 1) rest)
    else
      c :: removeAllF pat fuel rest

/-- Model of Python `str.replace(pat, "")` for a non-empty pattern `pat`. -/
def removeAll (pat s : List Char) : List Char :=
  removeAllF pat s.length s

/-- The five suffix patterns stripped by `normalize_family`
(`fonts.py` lines 117-121), in source order. -/
def stripPatterns : List (List Char) :=
  [" Bold".data, " Regular".data, " Light".data, " Italic".data, " Medium".data]

/-- Apply the five `str.replace(pat, "")` passes of `normalize_family`
in source order. -/
def strip5 (s : List Char) : List Char :=
  stripPatterns.foldl (fun acc p => removeAll p acc) s

/-- The `FONT_MAP` exception table of `normalize_family`
(`fonts.py` lines 123-141), in source order. -/
def FONT_MAP : List (String × String) :=
  [("Arkana Script", "Arkana"),
   ("Blogger", "Blogger Sans"),
   ("Delius Swash", "Delius Swash Caps"),
   ("Elsie Swash", "Elsie Swash Caps"),
   ("Gluk Glametrix", "Gluk Foglihtenno06"),
   ("Gluk Znikomitno25", "Gluk Foglihtenno06"),
   ("Im Fell", "Im Fell Dw Pica Sc"),
   ("Medieval Sharp", "Medievalsharp"),
   ("Playlist Caps", "Playlist"),
   ("Rissa Typeface", "Rissatypeface"),
   ("Selima", "Selima Script"),
   ("Six", "Six Caps"),
   ("V T323", "Vt323"),
   ("Different Summer", "Montserrat"),
   ("Dukomdesign Constantine", "Montserrat"),
   ("Sunday", "Montserrat")]

/-- Model of Python `FONT_MAP.get(name, name)`. -/
def fontMapGet (s : String) : String :=
  match FONT_MAP.find? (fun p => p.1 == s) with
  | some p => p.2
  | none => s

/-- Model of `normalize_family` (`fonts.py` lines 114-142): replace
underscores by spaces, title-case, strip the five suffix patterns, then
apply the exception table. -/
def normalize_family (name : String) : String :=
  fontMapGet (String.mk (strip5 (pyTitle (underscoreToSpace name.data))))

/-- The `FONT_WEIGHTS` enumeration (`fonts.py` lines 13-23). -/
def FONT_WEIGHTS : List String :=
  ["thin", "light", "extralight", "regular", "medium", "semibold", "bold",
   "extrabold", "black"]

/-- The `FONT_STYLES` enumeration (`fonts.py` line 25). -/
def FONT_STYLES : List String :=
  ["regular", "bold", "italic", "bolditalic"]

/-- Model of Python `str.split(" ")`: split on single space characters,
keeping empty segments; the result is always non-empty. -/
def splitOnChar (sep : Char) : List Char → List (List Char)
  | [] => [[]]
  | c :: rest =>
    match splitOnChar sep rest with
    | [] => [[c]]
    | t :: ts => if c = sep then [] :: t :: ts else (c :: t) :: ts

/-- The key computed by `get_font_weight`/`get_font_style`
(`fonts.py` lines 147 and 153):
`name.replace("_", " ").lower().split(" ")[-1]`. -/
def lastToken (name : String) : String :=
  String.mk ((splitOnChar ' ' (pyLower (underscoreToSpace name.data))).getLastD [])

/-- Model of `get_font_weight` (`fonts.py` lines 145-148). -/
def get_font_weight (name dflt : String) : String :=
  if lastToken name ∈ FONT_WEIGHTS then lastToken name else dflt

/-- Model of `get_font_style` (`fonts.py` lines 151-154). -/
def get_font_style (name dflt : String) : String :=
  if lastToken name ∈ FONT_STYLES then lastToken name else dflt

/-! ## FontManager state and lookup -/

/-- A font face record as stored in the pickle: `fontWeight` and
`fontStyle` are read with `dict.get(key, "regular")`, hence optional;
`bytes` (the font blob, modelled by an opaque `Nat` identifier) and
`fontFamily` are accessed directly. -/
structure Face where
  fontFamily : String
  fontWeight : Option String := none
  fontStyle : Option String := none
  bytes : Nat
deriving DecidableEq

/-- The loaded `_fonts` mapping: an insertion-ordered dict from normalized
family name to list of faces, modelled as an association list with
distinct keys. -/
abbrev FontDict := List (String × List Face)

/-- Python `dict[key]` wrapped in `Option` (`None` models `KeyError`). -/
def dictGet? (d : FontDict) (k : String) : Option (List Face) :=
  (d.find? (fun p => p.1 == k)).map Prod.snd

/-- The uncaught exceptions `lookup` can raise past the weight/style
asserts: `validationError` models the weight/style `assert` failures,
`emptyStoreError` the `StopIteration` of `next(iter(...))` on an empty
dict, `indexError` the `family[0]` on an empty face list — evaluated
inside the fallback-warning f-strings at lines 85 and 93 (the `except`
clause catches only `KeyError`, so these propagate) and at line 105. -/
inductive LookupError where
  | validationError
  | emptyStoreError
  | indexError
deriving DecidableEq

/-- The family resolution of `lookup` (`fonts.py` lines 79-93),
fallback-warning side effects included.  If the requested family is
present it is taken as-is (`i = 0`, no warning).  If it is absent and
"Montserrat" is present, the fallback warning at line 85 evaluates
`family[0]["fontFamily"]` BEFORE the `break` — on an empty Montserrat
face list this raises an uncaught `IndexError` (the `except` catches only
`KeyError`).  A family that resolved to an empty list (or to nothing)
then falls back to the first family in the store (line 92;
`next(iter(...))` on an empty store raises `StopIteration`), whose
warning at line 93 likewise evaluates `family[0]` and raises
`IndexError` on an empty first face list. -/
def resolveFamily (fonts : FontDict) (font_family : String) :
    Except LookupError (List Face) :=
  match dictGet? fonts (normalize_family font_family) with
  | some fam =>
    if fam.isEmpty then
      match fonts.head? with
      | some p =>
        if p.2.isEmpty then Except.error LookupError.indexError
        else Except.ok p.2
      | none => Except.error LookupError.emptyStoreError
    else Except.ok fam
  | none =>
    match dictGet? fonts (normalize_family "Montserrat") with
    | some fam =>
      if fam.isEmpty then Except.error LookupError.indexError
      else Except.ok fam
    | none =>
      match fonts.head? with
      | some p =>
        if p.2.isEmpty then Except.error LookupError.indexError
        else Except.ok p.2
      | none => Except.error LookupError.emptyStoreError

/-- The face selection of `lookup` (`fonts.py` lines 97-110): first face
whose `(fontWeight, fontStyle)` (defaulting to "regular") equals the
effective pair, else the first face of the family, else `IndexError`. -/
def pickFace (family : List Face) (fw fs : String) : Except LookupError Face :=
  match family.find?
      (fun f => f.fontWeight.getD "regular" == fw
        && f.fontStyle.getD "regular" == fs) with
  | some f => Except.ok f
  | none =>
    match family.head? with
    | some f => Except.ok f
    | none => Except.error LookupError.indexError

/-- Model of `FontManager.lookup` (`fonts.py` lines 68-111) on a loaded
store.  The weight/style asserts run first, then family resolution, then
face selection; the returned value is the face's `bytes`. -/
def lookup (fonts : FontDict) (font_family font_weight font_style : String) :
    Except LookupError Nat :=
  if font_weight ∈ FONT_WEIGHTS then
    if font_style ∈ FONT_STYLES then
      match resolveFamily fonts font_family with
      | Except.error e => Except.error e
      | Except.ok family =>
        match pickFace family (get_font_weight font_family font_weight)
            (get_font_style font_family font_style) with
        | Except.error e => Except.error e
        | Except.ok f => Except.ok f.bytes
    else Except.error LookupError.validationError
  else Except.error LookupError.validationError

/-- Modelled from the spec: the spec (section 4.2, step 3) speaks of the
"last whitespace-delimited token" of the lowercased family name (with
underscores treated as spaces).  This follows the spec's words — Python
`str.split()` semantics: split on runs of whitespace, discarding empty
tokens — and is compared against the source's `lastToken`, which splits
on the single space character only. -/
def specLastWhitespaceToken (name : String) : String :=
  String.mk ((((pyLower (underscoreToSpace name.data)).splitOnP
    (fun c => c.isWhitespace)).filter (fun t => ¬ t.isEmpty)).getLastD [])

/-! ## FontManager.load (fonts.py lines 60-66) -/

/-- Result of opening and unpickling the blob: `absent`/`corrupt` model an
exception raised by `fsspec.open`/`pickle.load` (before any assignment),
`decoded v` models a successful unpickle of `v` (where `v = none` models a
pickled `None`). -/
inductive Blob where
  | absent
  | corrupt
  | decoded : Option FontDict → Blob

/-- Model of `FontManager.load`: given the previous `_fonts` state and the
blob outcome, return the new `_fonts` state and whether the call succeeded
(`false` models an uncaught exception: I/O error, unpickling error, or the
`assert self._fonts is not None`). -/
def load (fonts : Option FontDict) (blob : Blob) : Option FontDict × Bool :=
  match blob with
  | Blob.absent => (fonts, false)
  | Blob.corrupt => (fonts, false)
  | Blob.decoded none => (none, false)
  | Blob.decoded (some d) => (some d, true)

/-! ## Legacy adapter per-character arrays (renderer.py convert_to_v5) -/

/-- Core of `re.sub("\n+", "\n", s)`: the Boolean records whether the
previous kept character was part of a newline run. -/
def collapseAux : Bool → List Char → List Char
  | _, [] => []
  | prevNl, c :: rest =>
    if c = '\n' then
      if prevNl then collapseAux true rest
      else '\n' :: collapseAux true rest
    else
      c :: collapseAux false rest

/-- Model of `re.sub("\n+", "\n", s)` (`renderer.py` line 99): collapse
every run of consecutive newline characters into a single newline. -/
def collapseNewlines (s : String) : String :=
  String.mk (collapseAux false s.data)

/-- Running-sum core of `list(accumulate(...))`: each output entry is the
accumulator after adding the current flag. -/
def textLineList (acc : Nat) : List Char → List Nat
  | [] => []
  | c :: rest =>
    (acc + if c = '\n' then 1 else 0) ::
      textLineList (acc + if c = '\n' then 1 else 0) rest

/-- The `text_line` entry built by `convert_to_v5` (`renderer.py` lines
110-113) for one element: running count of newlines over the
newline-collapsed text. -/
def text_line_of (s : String) : List Nat :=
  textLineList 0 (collapseNewlines s).data

/-- The `text_color` entry built by `convert_to_v5` (`renderer.py` lines
101-109) for one element: one fixed rgba string (abstracted as `c`)
repeated once per character of the newline-collapsed text. -/
def text_color_of (c : String) (s : String) : List String :=
  List.replicate (collapseNewlines s).length c

/-- The `font_bold` entry built by `convert_to_v5` (`renderer.py` line
134) for one element: `[False] * len(example["text"][i])`, i.e. the
length of the ORIGINAL, pre-collapse text. -/
def font_bold_of (s : String) : List Bool :=
  List.replicate s.length false

/-- The `font_italic` entry built by `convert_to_v5` (`renderer.py` line
135) for one element: `[False] * len(example["text"][i])`. -/
def font_italic_of (s : String) : List Bool :=
  List.replicate s.length false

/-- Decides whether a character list contains two consecutive newline
characters (a run of length at least two). -/
def hasNN : List Char → Bool
  | [] => false
  | [_] => false
  | c :: c2 :: rest => (c = '\n' && c2 = '\n') || hasNN (c2 :: rest)

/-! ## Canvas fit scale (renderer.py _get_scale_size) -/

/-- Model of Python `round` on exact rationals: round half to even. -/
def pyRound (q : ℚ) : ℤ :=
  if q - ⌊q⌋ < 1/2 then ⌊q⌋
  else if 1/2 < q - ⌊q⌋ then ⌊q⌋ + 1
  else if ⌊q⌋ % 2 = 0 then ⌊q⌋ else ⌊q⌋ + 1

/-- The uniform fit scale `s` of `_get_scale_size` (`renderer.py` line
217): `1.0 if max_size is None else min(1.0, max_size / max(width, height))`,
with Python floats modelled by exact rationals. -/
def fitScale (width height : ℚ) : Option ℚ → ℚ
  | none => 1
  | some m => min 1 (m / max width height)

/-- The per-axis x scale after the degenerate-size guard
(`renderer.py` lines 220-221): `sx` is replaced by `1/width` when
`round(width * sx) <= 0`. -/
def scaleX (width height : ℚ) (max_size : Option ℚ) : ℚ :=
  if pyRound (width * fitScale width height max_size) ≤ 0 then 1 / width
  else fitScale width height max_size

/-- The per-axis y scale after the degenerate-size guard
(`renderer.py` lines 222-223); note the guard tests `sy = s`, unaffected
by any reassignment of `sx`. -/
def scaleY (width height : ℚ) (max_size : Option ℚ) : ℚ :=
  if pyRound (height * fitScale width height max_size) ≤ 0 then 1 / height
  else fitScale width height max_size

/-- Model of `_get_scale_size` (`renderer.py` lines 213-228): returns
`((sx, sy), (round(sx*width), round(sy*height)))`. -/
def getScaleSize (width height : ℚ) (max_size : Option ℚ) :
    (ℚ × ℚ) × (ℤ × ℤ) :=
  ((scaleX width height max_size, scaleY width height max_size),
   (pyRound (scaleX width height max_size * width),
    pyRound (scaleY width height max_size * height)))

/-! ## TextProperty construction (schema.py) -/

/-- The value carried by a `TextMapItem`: `bool`, string, or number. -/
inductive MapValue where
  | boolVal : Bool → MapValue
  | strVal : String → MapValue
  | numVal : ℚ → MapValue
deriving DecidableEq

/-- Model of `TextMapItem` (`schema.py` lines 28-34). -/
structure TextMapItem where
  startIndex : Int
  endIndex : Int
  value : Option MapValue := none
  type : Option String := none
deriving DecidableEq

/-- The fields of `TextProperty` relevant to the lineMap invariant:
the stored (entity-decoded) text and the lineMap attribute. -/
structure TextPropertyModel where
  text : String
  lineMap : Option (List TextMapItem)

/-- Model of constructing a `TextProperty` (`schema.py` lines 125-161)
restricted to the `text`/`lineMap` fields: the `unescape` field validator
(Python `html.unescape`, an external collaborator, passed here as a
function parameter) runs first, then the `check_linemap` model validator
synthesizes a single whole-range item when `lineMap` is `None`. -/
def constructTextProperty (unescape : String → String) (text : String)
    (lineMap : Option (List TextMapItem)) : TextPropertyModel :=
  let t := unescape text
  let lm : Option (List TextMapItem) :=
    match lineMap with
    | none =>
      some [{ startIndex := 0, endIndex := (t.length : Int) - 1,
              value := some (MapValue.strVal "line"),
              type := some "line" }]
    | some l => some l
  { text := t, lineMap := lm }


/-- Number of newline characters in a character list (used to state the
running-count property of `text_line`). -/
def countNl : List Char → Nat
  | [] => 0
  | c :: rest => (if c = '\n' then 1 else 0) + countNl rest


/-! ## Helper lemmas -/

theorem fontMapGet_find?_none (z : String) :
    FONT_MAP.find? (fun p => p.1 == fontMapGet z) = none := by
  unfold fontMapGet
  cases h : FONT_MAP.find? (fun p => p.1 == z) with
  | none => exact h
  | some p =>
    have hp : p ∈ FONT_MAP := List.mem_of_find?_eq_some h
    revert hp
    have : ∀ q ∈ FONT_MAP, FONT_MAP.find? (fun r => r.1 == q.2) = none := by
      decide
    exact this p

theorem dictGet?_mem {d : FontDict} {k : String} {fam : List Face}
    (h : dictGet? d k = some fam) : ∃ q ∈ d, q.2 = fam := by
  unfold dictGet? at h
  cases hf : d.find? (fun p => p.1 == k) with
  | none => rw [hf] at h; cases h
  | some q =>
    rw [hf] at h
    exact ⟨q, List.mem_of_find?_eq_some hf, by cases h; rfl⟩

theorem pickFace_ok_of_ne_nil {family : List Face} (h : family ≠ [])
    (fw fs : String) : ∃ f ∈ family, pickFace family fw fs = Except.ok f := by
  unfold pickFace
  cases hf : family.find?
      (fun f => f.fontWeight.getD "regular" == fw
        && f.fontStyle.getD "regular" == fs) with
  | some f => exact ⟨f, List.mem_of_find?_eq_some hf, rfl⟩
  | none =>
    cases family with
    | nil => exact absurd rfl h
    | cons f rest => exact ⟨f, List.mem_cons_self f rest, rfl⟩

theorem resolveFamily_ok_of_all_ne_nil {fonts : FontDict}
    (h1 : fonts ≠ []) (h2 : ∀ p ∈ fonts, p.2 ≠ []) (ff : String) :
    ∃ fam, resolveFamily fonts ff = Except.ok fam ∧ fam ≠ [] ∧
      ∃ q ∈ fonts, q.2 = fam := by
  unfold resolveFamily
  cases hreq : dictGet? fonts (normalize_family ff) with
  | some fam =>
    obtain ⟨q, hq, hq2⟩ := dictGet?_mem hreq
    have hne : fam ≠ [] := hq2 ▸ h2 q hq
    cases fam with
    | nil => exact absurd rfl hne
    | cons f fs => exact ⟨f :: fs, rfl, hne, q, hq, hq2⟩
  | none =>
    cases hmont : dictGet? fonts (normalize_family "Montserrat") with
    | some fam =>
      obtain ⟨q, hq, hq2⟩ := dictGet?_mem hmont
      have hne : fam ≠ [] := hq2 ▸ h2 q hq
      cases fam with
      | nil => exact absurd rfl hne
      | cons f fs => exact ⟨f :: fs, rfl, hne, q, hq, hq2⟩
    | none =>
      cases fonts with
      | nil => exact absurd rfl h1
      | cons p rest =>
        have hne : p.2 ≠ [] := h2 p (List.mem_cons_self p rest)
        refine ⟨p.2, ?_, hne, p, List.mem_cons_self p rest, rfl⟩
        show (match (p :: rest : FontDict).head? with
          | some q =>
            if q.2.isEmpty then Except.error LookupError.indexError
            else Except.ok q.2
          | none => Except.error LookupError.emptyStoreError) = Except.ok p.2
        show (if p.2.isEmpty then Except.error LookupError.indexError
          else Except.ok p.2) = Except.ok p.2
        cases hp2 : p.2 with
        | nil => exact absurd hp2 hne
        | cons f fs => rfl

theorem resolveFamily_error_eq {fonts : FontDict} {ff : String}
    {e : LookupError} (h : resolveFamily fonts ff = Except.error e) :
    e = LookupError.emptyStoreError ∨ e = LookupError.indexError := by
  unfold resolveFamily at h
  repeat' split at h
  all_goals
    first
      | (cases h; exact Or.inl rfl)
      | (cases h; exact Or.inr rfl)
      | cases h

theorem pickFace_error_eq {family : List Face} {fw fs : String}
    {e : LookupError} (h : pickFace family fw fs = Except.error e) :
    e = LookupError.indexError := by
  unfold pickFace at h
  cases hf : family.find?
      (fun f => f.fontWeight.getD "regular" == fw
        && f.fontStyle.getD "regular" == fs) with
  | some f => rw [hf] at h; cases h
  | none =>
    rw [hf] at h
    cases hh : family.head? with
    | none => rw [hh] at h; cases h; rfl
    | some f => rw [hh] at h; cases h


theorem collapseAux_nl_true (rest : List Char) :
    collapseAux true ('\n' :: rest) = collapseAux true rest := by
  simp [collapseAux]

theorem collapseAux_nl_false (rest : List Char) :
    collapseAux false ('\n' :: rest) = '\n' :: collapseAux true rest := by
  simp [collapseAux]

theorem collapseAux_other (b : Bool) {c : Char} (hc : c ≠ '\n')
    (rest : List Char) :
    collapseAux b (c :: rest) = c :: collapseAux false rest := by
  simp [collapseAux, hc]

theorem collapseAux_length_le (l : List Char) :
    ∀ b, (collapseAux b l).length ≤ l.length := by
  induction l with
  | nil => intro b; simp [collapseAux]
  | cons c rest ih =>
    intro b
    by_cases hc : c = '\n'
    · subst hc
      cases b with
      | true =>
        rw [collapseAux_nl_true]
        exact Nat.le_succ_of_le (ih true)
      | false =>
        rw [collapseAux_nl_false]
        simp only [List.length_cons]
        exact Nat.succ_le_succ (ih true)
    · rw [collapseAux_other b hc]
      simp only [List.length_cons]
      exact Nat.succ_le_succ (ih false)

theorem collapseAux_length_lt (l : List Char) (h : hasNN l = true) :
    ∀ b, (collapseAux b l).length < l.length := by
  induction l with
  | nil => cases h
  | cons c rest ih =>
    cases rest with
    | nil => cases h
    | cons c2 rest2 =>
      intro b
      have h' : (c = '\n' ∧ c2 = '\n') ∨ hasNN (c2 :: rest2) = true := by
        simpa [hasNN, Bool.or_eq_true, decide_eq_true_eq] using h
      rcases h' with ⟨hc, hc2⟩ | hrest
      · subst hc; subst hc2
        have hle := collapseAux_length_le rest2 true
        cases b with
        | true =>
          rw [collapseAux_nl_true, collapseAux_nl_true]
          simp only [List.length_cons]
          omega
        | false =>
          rw [collapseAux_nl_false, collapseAux_nl_true]
          simp only [List.length_cons]
          omega
      · have ihr := ih hrest
        by_cases hc : c = '\n'
        · subst hc
          cases b with
          | true =>
            rw [collapseAux_nl_true]
            have := ihr true
            simp only [List.length_cons] at this ⊢
            omega
          | false =>
            rw [collapseAux_nl_false]
            have := ihr true
            simp only [List.length_cons] at this ⊢
            omega
        · rw [collapseAux_other b hc]
          have := ihr false
          simp only [List.length_cons] at this ⊢
          omega

theorem textLineList_length (l : List Char) :
    ∀ acc, (textLineList acc l).length = l.length := by
  induction l with
  | nil => intro acc; rfl
  | cons c rest ih =>
    intro acc
    simp only [textLineList, List.length_cons, ih]

theorem textLineList_eq_map (l : List Char) :
    ∀ acc, textLineList acc l =
      (List.range l.length).map (fun i => acc + countNl (l.take (i + 1))) := by
  induction l with
  | nil => intro acc; rfl
  | cons c rest ih =>
    intro acc
    simp only [textLineList, List.length_cons, List.range_succ_eq_map,
      List.map_cons, List.map_map]
    refine congrArg₂ List.cons ?_ ?_
    · simp [countNl]
    · rw [ih (acc + if c = '\n' then 1 else 0)]
      refine List.map_congr_left ?_
      intro i _
      simp only [Function.comp_apply, Nat.succ_eq_add_one,
        List.take_succ_cons, countNl]
      omega

theorem pyRound_intCast (n : ℤ) : pyRound (n : ℚ) = n := by
  unfold pyRound
  rw [Int.floor_intCast]
  norm_num

theorem pyRound_nonneg {q : ℚ} (h : 0 ≤ q) : 0 ≤ pyRound q := by
  have hf : (0 : ℤ) ≤ ⌊q⌋ := by
    rw [Int.le_floor]
    exact_mod_cast h
  unfold pyRound
  split_ifs <;> omega


theorem fontMapGet_idem (z : String) :
    fontMapGet (fontMapGet z) = fontMapGet z := by
  show (match FONT_MAP.find? (fun p => p.1 == fontMapGet z) with
    | some p => p.2
    | none => fontMapGet z) = fontMapGet z
  rw [fontMapGet_find?_none z]

/-! ## Claim theorems -/

/-- C1 (amended): for every family-name string and every loaded FontStore
that has at least one family and in which every stored family's face list
is non-empty, `lookup` with a recognized weight and style returns the
bytes of some face stored in the store and never raises: an absent family
falls back to "Montserrat", then to the first family in the store, and a
(weight,style) mismatch falls back to the first face of the resolved
family.  (The amendment strengthens "non-empty FontStore" to "every
stored face list non-empty", forced by `C1_counterexample`: the fallback
log messages evaluate `family[0]` and raise IndexError whenever the
fallback lands on an empty face list.) -/
theorem C1_lookup_total (fonts : FontDict) (ff w s : String)
    (h1 : fonts ≠ []) (h2 : ∀ p ∈ fonts, p.2 ≠ [])
    (hw : w ∈ FONT_WEIGHTS) (hs : s ∈ FONT_STYLES) :
    ∃ q ∈ fonts, ∃ face ∈ q.2, lookup fonts ff w s = Except.ok face.bytes := by
  obtain ⟨fam, hok, hne, q, hq, hq2⟩ := resolveFamily_ok_of_all_ne_nil h1 h2 ff
  obtain ⟨face, hface, hpick⟩ :=
    pickFace_ok_of_ne_nil hne (get_font_weight ff w) (get_font_style ff s)
  refine ⟨q, hq, face, by rw [hq2]; exact hface, ?_⟩
  unfold lookup
  rw [if_pos hw, if_pos hs, hok]
  show (match pickFace fam (get_font_weight ff w) (get_font_style ff s) with
    | Except.error e => Except.error e
    | Except.ok f => Except.ok f.bytes) = Except.ok face.bytes
  rw [hpick]

/-- C1 counterexample: two non-empty FontStores on which `lookup` raises
`IndexError`.  First, a store whose requested family has an empty face
list: the first-family fallback warning (`fonts.py` line 93) evaluates
`family[0]` on the empty first list.  Second, a store with a non-empty
FIRST family but an empty "Montserrat" list: requesting an absent family
makes the Montserrat-fallback warning (line 85) evaluate `family[0]` on
the empty list, so even "first family non-empty" does not restore
totality. -/
theorem C1_counterexample :
    lookup [("A", []), ("B", [Face.mk "B" none none 5])]
      "A" "regular" "regular" = Except.error LookupError.indexError ∧
    lookup [("B", [Face.mk "B" none none 5]), ("Montserrat", [])]
      "X" "regular" "regular" = Except.error LookupError.indexError :=
  ⟨rfl, rfl⟩

/-- C1 witness: a concrete absent-family request on a concrete one-family
store (all face lists non-empty) succeeds with a stored face's bytes. -/
theorem C1_witness :
    ∃ q ∈ ([("Montserrat", [Face.mk "Montserrat" none none 7])] : FontDict),
      ∃ face ∈ q.2,
        lookup [("Montserrat", [Face.mk "Montserrat" none none 7])]
          "NoSuchFont" "regular" "regular" = Except.ok face.bytes :=
  C1_lookup_total _ "NoSuchFont" "regular" "regular"
    (by decide) (by decide) (by decide) (by decide)

/-- C3 (amended): if the last SPACE-delimited token (Python
`split(" ")[-1]`, after replacing underscores with spaces and lowercasing)
of the original familyName is a recognized weight keyword, it overrides
the weight argument; independently for styles; and
`resolve("Acme Bold")` with default arguments matches the face whose
effective weight is "bold".  (The amendment replaces "whitespace-
delimited" by "space-delimited", forced by `C3_counterexample`.) -/
theorem C3_suffix_override (name w s : String) :
    (lastToken name ∈ FONT_WEIGHTS → get_font_weight name w = lastToken name) ∧
    (lastToken name ∈ FONT_STYLES → get_font_style name s = lastToken name) ∧
    (lastToken name ∉ FONT_WEIGHTS → get_font_weight name w = w) ∧
    lookup [("Acme",
        [Face.mk "Acme" (some "regular") (some "regular") 1,
         Face.mk "Acme" (some "bold") (some "bold") 2])]
      "Acme Bold" "regular" "regular" = Except.ok 2 := by
  refine ⟨fun h => ?_, fun h => ?_, fun h => ?_, rfl⟩
  · unfold get_font_weight
    rw [if_pos h]
  · unfold get_font_style
    rw [if_pos h]
  · unfold get_font_weight
    rw [if_neg h]

/-- C3 counterexample: for familyName "Acme\tBold" the last
whitespace-delimited token (the spec's wording) is the recognized weight
"bold", yet the code splits on the space character only, computes the
unrecognized token "acme\tbold", and keeps the default weight. -/
theorem C3_counterexample :
    specLastWhitespaceToken "Acme\tBold" = "bold" ∧
    "bold" ∈ FONT_WEIGHTS ∧
    get_font_weight "Acme\tBold" "regular" = "regular" ∧
    get_font_weight "Acme\tBold" "regular" ≠ "bold" := by decide

/-- C3 witness: the suffix override at the concrete name "Acme Bold". -/
theorem C3_witness : get_font_weight "Acme Bold" "regular" = "bold" :=
  (C3_suffix_override "Acme Bold" "regular" "regular").1 (by decide)

/-- C4 (amended): `normalize_family` is idempotent on every input whose
normalized form is left unchanged by each of the three normalization
passes (underscore replacement, title-casing, suffix stripping); the
exception-table pass is always inert on an output
(`fontMapGet_find?_none`).  Unrestricted idempotence fails
(`C4_counterexample`). -/
theorem C4_normalize_idem (x : String)
    (h1 : underscoreToSpace (normalize_family x).data = (normalize_family x).data)
    (h2 : pyTitle (normalize_family x).data = (normalize_family x).data)
    (h3 : strip5 (normalize_family x).data = (normalize_family x).data) :
    normalize_family (normalize_family x) = normalize_family x := by
  have step1 : normalize_family (normalize_family x)
      = fontMapGet (normalize_family x) := by
    show fontMapGet (String.mk (strip5 (pyTitle (underscoreToSpace
      (normalize_family x).data)))) = fontMapGet (normalize_family x)
    rw [h1, h2, h3]
  rw [step1]
  show fontMapGet (fontMapGet
      (String.mk (strip5 (pyTitle (underscoreToSpace x.data)))))
    = fontMapGet (String.mk (strip5 (pyTitle (underscoreToSpace x.data))))
  exact fontMapGet_idem _

/-- C4 counterexample: normalization is not idempotent on "A2 Boldy":
the first pass yields "A2y" (stripping " Bold" glues "y" onto the digit),
the second pass title-cases it to "A2Y". -/
theorem C4_counterexample :
    normalize_family (normalize_family "A2 Boldy") ≠
      normalize_family "A2 Boldy" := by decide

/-- C4 witness: idempotence at the concrete name "Montserrat". -/
theorem C4_witness :
    normalize_family (normalize_family "Montserrat") =
      normalize_family "Montserrat" :=
  C4_normalize_idem "Montserrat" (by decide) (by decide) (by decide)

/-- C5: a weight outside the 9 recognized weights or a style outside the
4 recognized styles makes `lookup` fail with the validation assert,
independently of the store and the family name (in particular before any
family lookup or fallback); conversely a recognized weight together with
a recognized style never produces that failure. -/
theorem C5_enum_gate (fonts : FontDict) (ff w s : String) :
    ((w ∉ FONT_WEIGHTS ∨ s ∉ FONT_STYLES) →
      lookup fonts ff w s = Except.error LookupError.validationError) ∧
    (w ∈ FONT_WEIGHTS → s ∈ FONT_STYLES →
      lookup fonts ff w s ≠ Except.error LookupError.validationError) := by
  constructor
  · intro h
    unfold lookup
    rcases h with hw | hs
    · rw [if_neg hw]
    · by_cases hw : w ∈ FONT_WEIGHTS
      · rw [if_pos hw, if_neg hs]
      · rw [if_neg hw]
  · intro hw hs
    unfold lookup
    rw [if_pos hw, if_pos hs]
    cases hr : resolveFamily fonts ff with
    | error e =>
      rcases resolveFamily_error_eq hr with he | he <;>
        subst he <;> intro hcontra <;>
        exact LookupError.noConfusion (Except.error.inj hcontra)
    | ok fam =>
      show (match pickFace fam (get_font_weight ff w) (get_font_style ff s) with
        | Except.error e => Except.error e
        | Except.ok f => Except.ok f.bytes) ≠
        Except.error LookupError.validationError
      cases hp : pickFace fam (get_font_weight ff w) (get_font_style ff s) with
      | error e =>
        have he := pickFace_error_eq hp
        subst he
        intro hcontra
        exact LookupError.noConfusion (Except.error.inj hcontra)
      | ok f =>
        intro hcontra
        exact Except.noConfusion hcontra

/-- C5 witness: the gate at concrete inputs — a bogus weight is rejected
with the validation failure even on an empty store, and a recognized
weight/style pair is never rejected by the gate. -/
theorem C5_witness :
    lookup [] "x" "bogus" "regular" = Except.error LookupError.validationError ∧
    lookup [("Montserrat", [Face.mk "Montserrat" none none 7])] "Montserrat"
      "regular" "regular" ≠ Except.error LookupError.validationError :=
  ⟨(C5_enum_gate [] "x" "bogus" "regular").1 (Or.inl (by decide)),
   (C5_enum_gate [("Montserrat", [Face.mk "Montserrat" none none 7])]
      "Montserrat" "regular" "regular").2 (by decide) (by decide)⟩


/-- C2 (amended): for every legacy element text, the `text_line` array
produced by `convert_to_v5` has one entry per character of the
newline-COLLAPSED text (newline characters included), and the entry at
position `i` is the running count of newline characters up to and
including that position; for the text "ab\ncd" (5 characters after
collapse, since the newline keeps its position) the array is
`[0,0,1,1,1]`.  (The amendment replaces the spec's example `[0,0,1,1]`,
which wrongly drops the newline's own entry, forced by
`C2_counterexample`.) -/
theorem C2_text_line_running_count (s : String) :
    text_line_of s =
      (List.range (collapseNewlines s).data.length).map
        (fun i => countNl ((collapseNewlines s).data.take (i + 1))) ∧
    (text_line_of s).length = (collapseNewlines s).length ∧
    text_line_of "ab\ncd" = [0, 0, 1, 1, 1] := by
  refine ⟨?_, ?_, by decide⟩
  · unfold text_line_of
    rw [textLineList_eq_map]
    simp
  · unfold text_line_of
    rw [textLineList_length]
    rfl

/-- C2 counterexample: the claimed array `[0,0,1,1]` for the text
"ab\ncd" is wrong; the code produces `[0,0,1,1,1]` (the collapsed text
still contains the newline character at position 2). -/
theorem C2_counterexample :
    text_line_of "ab\ncd" = [0, 0, 1, 1, 1] ∧
    text_line_of "ab\ncd" ≠ [0, 0, 1, 1] := by decide

/-- C7: constructing a TextProperty without a lineMap always synthesizes
exactly one lineMap item spanning `[0, len(text)-1]` (the stored,
entity-decoded text) with value "line" and type "line"; and every
constructed TextProperty has a non-null lineMap, whatever `lineMap`
argument is passed; in particular text "abc" with no lineMap yields
exactly one item spanning `[0, 2]`. -/
theorem C7_linemap_default (unescape : String → String) (text : String) :
    (constructTextProperty unescape text none).lineMap =
      some [{ startIndex := 0,
              endIndex := ((constructTextProperty unescape text none).text.length : Int) - 1,
              value := some (MapValue.strVal "line"),
              type := some "line" }] ∧
    (∀ lm, (constructTextProperty unescape text lm).lineMap ≠ none) ∧
    (constructTextProperty id "abc" none).lineMap =
      some [{ startIndex := 0, endIndex := 2,
              value := some (MapValue.strVal "line"),
              type := some "line" }] := by
  refine ⟨rfl, ?_, by decide⟩
  intro lm
  cases lm with
  | none => simp [constructTextProperty]
  | some l => simp [constructTextProperty]

/-- C8 (amended): `load` fails exactly when the blob is absent, corrupt,
or decodes to `None`; an EMPTY mapping after decode is accepted and
installed (the code's assert checks only `is not None`); and on a failure
the installed state is either the prior state (exception before
assignment) or `None` (a decoded `None` is assigned before the assert
fires), so no usable mapping is installed by the failing call.
(The amendment drops the spec's "empty after decode" failure case, forced
by `C8_counterexample`.) -/
theorem C8_load_failure (prev : Option FontDict) (blob : Blob) :
    ((load prev blob).2 = false ↔
      blob = Blob.absent ∨ blob = Blob.corrupt ∨ blob = Blob.decoded none) ∧
    ((load prev blob).2 = false →
      (load prev blob).1 = prev ∨ (load prev blob).1 = none) := by
  cases blob with
  | absent => simp [load]
  | corrupt => simp [load]
  | decoded v =>
    cases v with
    | none => simp [load]
    | some d => simp [load]

/-- C8 counterexample: a blob that decodes to an EMPTY family mapping is
accepted — `load` succeeds and installs the empty mapping, contradicting
the claim that an empty mapping after decode is rejected with a load
failure. -/
theorem C8_counterexample :
    load none (Blob.decoded (some [])) = (some [], true) := rfl

/-- C8 witness: the amended characterization at a concrete failing input
(an absent blob on a fresh manager). -/
theorem C8_witness :
    ((load none Blob.absent).2 = false ↔
      Blob.absent = Blob.absent ∨ Blob.absent = Blob.corrupt ∨
        Blob.absent = Blob.decoded none) ∧
    ((load none Blob.absent).2 = false →
      (load none Blob.absent).1 = none ∨ (load none Blob.absent).1 = none) :=
  C8_load_failure none Blob.absent

/-- C10: in `convert_to_v5` the `font_bold` and `font_italic` arrays are
all-false arrays of the length of the ORIGINAL (pre-collapse) text, while
`text_color` and `text_line` have the length of the newline-collapsed
text; hence for every element whose original text contains two or more
consecutive newlines, `font_bold`/`font_italic` are strictly longer than
the converted text (and than the other per-character arrays). -/
theorem C10_array_misalignment (s : String) (c : String) :
    (font_bold_of s).length = s.length ∧
    (font_italic_of s).length = s.length ∧
    (∀ b ∈ font_bold_of s, b = false) ∧
    (∀ b ∈ font_italic_of s, b = false) ∧
    (text_color_of c s).length = (collapseNewlines s).length ∧
    (text_line_of s).length = (collapseNewlines s).length ∧
    (hasNN s.data = true → (collapseNewlines s).length < s.length) := by
  refine ⟨?_, ?_, ?_, ?_, ?_, ?_, ?_⟩
  · simp [font_bold_of]
  · simp [font_italic_of]
  · intro b hb
    exact List.eq_of_mem_replicate hb
  · intro b hb
    exact List.eq_of_mem_replicate hb
  · simp [text_color_of]
  · unfold text_line_of
    rw [textLineList_length]
    rfl
  · intro h
    show (collapseAux false s.data).length < s.data.length
    exact collapseAux_length_lt s.data h false

/-- C10 witness: the misalignment at the concrete text "a\n\nb" — the
original text has 4 characters, the collapsed text 3, so the all-false
bold/italic arrays (length 4) are strictly longer than the per-character
color/line arrays (length 3). -/
theorem C10_witness :
    (font_bold_of "a\n\nb").length = 4 ∧
    (text_line_of "a\n\nb").length = 3 ∧
    (collapseNewlines "a\n\nb").length < ("a\n\nb" : String).length :=
  ⟨by decide, by decide,
    (C10_array_misalignment "a\n\nb" "rgba(0,0,0,1.0)").2.2.2.2.2.2 (by decide)⟩


theorem pyRound_one : pyRound (1 : ℚ) = 1 := by
  unfold pyRound
  norm_num

theorem pyRound_half : pyRound ((1:ℚ)/2) = 0 := by
  unfold pyRound
  norm_num

theorem pyRound_360 : pyRound ((360:ℚ)) = 360 := by
  have := pyRound_intCast 360
  norm_num at this
  exact this

theorem pyRound_180 : pyRound ((180:ℚ)) = 180 := by
  have := pyRound_intCast 180
  norm_num at this
  exact this

theorem fitScale_1000_500 : fitScale 1000 500 (some 360) = 9/25 := by
  show min (1:ℚ) (360 / max 1000 500) = 9/25
  rw [max_def, min_def]
  norm_num

theorem fitScale_half : fitScale (1/2) (1/2) (some 360) = 1 := by
  show min (1:ℚ) (360 / max (1/2) (1/2)) = 1
  rw [max_def, min_def]
  norm_num

theorem getScaleSize_1000_500 :
    getScaleSize 1000 500 (some 360) = ((9/25, 9/25), (360, 180)) := by
  have e1 : (1000:ℚ) * (9/25) = 360 := by norm_num
  have e2 : (500:ℚ) * (9/25) = 180 := by norm_num
  have e3 : (9/25:ℚ) * 1000 = 360 := by norm_num
  have e4 : (9/25:ℚ) * 500 = 180 := by norm_num
  unfold getScaleSize scaleX scaleY
  rw [fitScale_1000_500, e1, e2, pyRound_360, pyRound_180,
    if_neg (by norm_num), if_neg (by norm_num), e3, e4, pyRound_360,
    pyRound_180]

theorem getScaleSize_half :
    getScaleSize (1/2) (1/2) (some 360) = ((2, 2), (1, 1)) := by
  have e1 : (1/2:ℚ) * 1 = 1/2 := by norm_num
  have e2 : (1:ℚ) / (1/2) = 2 := by norm_num
  have e3 : (2:ℚ) * (1/2) = 1 := by norm_num
  unfold getScaleSize scaleX scaleY
  rw [fitScale_half, e1, pyRound_half,
    if_pos (by norm_num : (0:ℤ) ≤ 0), e2, e3, pyRound_one]

theorem fitScale_pos (w h m : ℚ) (hw : 0 < w) (hm : 0 < m) :
    0 < fitScale w h (some m) := by
  show (0:ℚ) < min 1 (m / max w h)
  have hmax : (0:ℚ) < max w h := lt_of_lt_of_le hw (le_max_left w h)
  exact lt_min one_pos (div_pos hm hmax)

/-- C6: for positive width and height the fit scale is
`s = min(1, maxSize / max(width, height))`; each axis whose rounded
dimension is positive keeps scale `s` and pixel size `round(s·dim)`,
while an axis whose rounded dimension is 0 (the only non-positive case
when `maxSize > 0`) gets its scale recomputed as `1/dim` so that its
pixel size is exactly 1; in particular `(1000, 500, 360)` yields scale
`(0.36, 0.36)` and size `(360, 180)`, and `(0.5, 0.5, 360)` yields final
size `(1, 1)`.  Python floats are modelled by exact rationals. -/
theorem C6_fit_scale (w h m : ℚ) (hw : 0 < w) (hh : 0 < h) :
    (0 < m → 0 ≤ pyRound (w * fitScale w h (some m)) ∧
      0 ≤ pyRound (h * fitScale w h (some m))) ∧
    fitScale w h (some m) = min 1 (m / max w h) ∧
    (pyRound (w * fitScale w h (some m)) = 0 →
      (getScaleSize w h (some m)).1.1 = 1 / w ∧
      (getScaleSize w h (some m)).2.1 = 1) ∧
    (0 < pyRound (w * fitScale w h (some m)) →
      (getScaleSize w h (some m)).1.1 = fitScale w h (some m) ∧
      (getScaleSize w h (some m)).2.1 =
        pyRound (fitScale w h (some m) * w)) ∧
    (pyRound (h * fitScale w h (some m)) = 0 →
      (getScaleSize w h (some m)).1.2 = 1 / h ∧
      (getScaleSize w h (some m)).2.2 = 1) ∧
    (0 < pyRound (h * fitScale w h (some m)) →
      (getScaleSize w h (some m)).1.2 = fitScale w h (some m) ∧
      (getScaleSize w h (some m)).2.2 =
        pyRound (fitScale w h (some m) * h)) ∧
    getScaleSize 1000 500 (some 360) = ((9/25, 9/25), (360, 180)) ∧
    getScaleSize (1/2) (1/2) (some 360) = ((2, 2), (1, 1)) := by
  refine ⟨?_, rfl, ?_, ?_, ?_, ?_, getScaleSize_1000_500, getScaleSize_half⟩
  · intro hm
    have hs := fitScale_pos w h m hw hm
    exact ⟨pyRound_nonneg (le_of_lt (mul_pos hw hs)),
      pyRound_nonneg (le_of_lt (mul_pos hh hs))⟩
  · intro hzero
    have hg : pyRound (w * fitScale w h (some m)) ≤ 0 := le_of_eq hzero
    have hsx : scaleX w h (some m) = 1 / w := by
      unfold scaleX
      rw [if_pos hg]
    refine ⟨hsx, ?_⟩
    show pyRound (scaleX w h (some m) * w) = 1
    rw [hsx, one_div_mul_cancel (ne_of_gt hw), pyRound_one]
  · intro hpos
    have hg : ¬ pyRound (w * fitScale w h (some m)) ≤ 0 := by omega
    have hsx : scaleX w h (some m) = fitScale w h (some m) := by
      unfold scaleX
      rw [if_neg hg]
    exact ⟨hsx, by show pyRound (scaleX w h (some m) * w) = _; rw [hsx]⟩
  · intro hzero
    have hg : pyRound (h * fitScale w h (some m)) ≤ 0 := le_of_eq hzero
    have hsy : scaleY w h (some m) = 1 / h := by
      unfold scaleY
      rw [if_pos hg]
    refine ⟨hsy, ?_⟩
    show pyRound (scaleY w h (some m) * h) = 1
    rw [hsy, one_div_mul_cancel (ne_of_gt hh), pyRound_one]
  · intro hpos
    have hg : ¬ pyRound (h * fitScale w h (some m)) ≤ 0 := by omega
    have hsy : scaleY w h (some m) = fitScale w h (some m) := by
      unfold scaleY
      rw [if_neg hg]
    exact ⟨hsy, by show pyRound (scaleY w h (some m) * h) = _; rw [hsy]⟩

/-- C6 witness: the two concrete boundary evaluations, obtained from the
claim theorem at width 1000, height 500, maxSize 360. -/
theorem C6_witness :
    getScaleSize 1000 500 (some 360) = ((9/25, 9/25), (360, 180)) ∧
    getScaleSize (1/2) (1/2) (some 360) = ((2, 2), (1, 1)) :=
  ⟨(C6_fit_scale 1000 500 360 (by decide) (by decide)).2.2.2.2.2.2.1,
   (C6_fit_scale 1000 500 360 (by decide) (by decide)).2.2.2.2.2.2.2⟩

/-- C9: for every positive canvas width and height and every maxSize
(present or `None`), the final pixel size is strictly positive on both
axes — the SizingError assert after the degenerate-size guard is
unreachable.  Python floats are modelled by exact rationals. -/
theorem C9_size_positive (w h : ℚ) (m : Option ℚ) (hw : 0 < w)
    (hh : 0 < h) :
    0 < (getScaleSize w h m).2.1 ∧ 0 < (getScaleSize w h m).2.2 := by
  constructor
  · show 0 < pyRound (scaleX w h m * w)
    by_cases hg : pyRound (w * fitScale w h m) ≤ 0
    · have hsx : scaleX w h m = 1 / w := by
        unfold scaleX
        rw [if_pos hg]
      rw [hsx, one_div_mul_cancel (ne_of_gt hw), pyRound_one]
      norm_num
    · have hsx : scaleX w h m = fitScale w h m := by
        unfold scaleX
        rw [if_neg hg]
      rw [hsx, mul_comm]
      omega
  · show 0 < pyRound (scaleY w h m * h)
    by_cases hg : pyRound (h * fitScale w h m) ≤ 0
    · have hsy : scaleY w h m = 1 / h := by
        unfold scaleY
        rw [if_pos hg]
      rw [hsy, one_div_mul_cancel (ne_of_gt hh), pyRound_one]
      norm_num
    · have hsy : scaleY w h m = fitScale w h m := by
        unfold scaleY
        rw [if_neg hg]
      rw [hsy, mul_comm]
      omega

/-- C9 witness: strict positivity of the computed size at the concrete
canvas 1000x500 with maxSize 360. -/
theorem C9_witness :
    0 < (getScaleSize 1000 500 (some 360)).2.1 ∧
    0 < (getScaleSize 1000 500 (some 360)).2.2 :=
  C9_size_positive 1000 500 (some 360) (by decide) (by decide)


/-- C2 witness: the running-count array at the concrete text "ab\ncd",
obtained from the claim theorem. -/
theorem C2_witness : text_line_of "ab\ncd" = [0, 0, 1, 1, 1] :=
  (C2_text_line_running_count "ab\ncd").2.2

/-- C7 witness: the synthesized lineMap for text "abc" with no lineMap,
obtained from the claim theorem. -/
theorem C7_witness :
    (constructTextProperty id "abc" none).lineMap =
      some [{ startIndex := 0, endIndex := 2,
              value := some (MapValue.strVal "line"),
              type := some "line" }] :=
  (C7_linemap_default id "abc").2.2

end CR
